import Mathlib

/-!
Verification development for the quri-sdk-notebooks repository.

The notebooks demonstrate an electron-integral pipeline (AO → spatial MO →
spin MO → active-space projection), an active-space partitioning of molecular
orbitals, a data-recording decorator, and a VQE optimization loop.  The
in-notebook code (the `vqe` driving loop and the `return_highest_estimate`
recordable function) is embedded directly from the notebooks; the library
objects the notebooks invoke (`ActiveSpace`, `ActiveSpaceMolecularOrbitals`,
the integral sets, the recording machinery, the optimizer protocol) are
modelled from the specification, as their sources are not part of this
repository.
-/

namespace QuriSdk

/-- Classification of a spatial orbital once an active space is assigned:
core (doubly occupied), active, or virtual (empty). -/
inductive OrbitalType where
  | CORE
  | ACTIVE
  | VIRTUAL
  deriving DecidableEq, Repr

/-- Error raised on invalid active-space parameters. -/
inductive ConfigurationError where
  | mk (msg : String)
  deriving DecidableEq, Repr

/-- Error with `IndexError` semantics for out-of-range orbital indices. -/
inductive IndexError where
  | mk (msg : String)
  deriving DecidableEq, Repr

/-- Modelled from the spec: `ActiveSpace` — number of active electrons, number
of active orbitals, optional explicit list of active orbital indices.  A pure
configuration value with no computed state. -/
structure ActiveSpace where
  n_active_ele : Nat
  n_active_orb : Nat
  active_orbs_indices : Option (List Nat)
  deriving DecidableEq, Repr

/-- Modelled from the spec: `cas(n_active_ele, n_active_orb)` builds an
`ActiveSpace` from the two counts, leaving `active_orbs_indices` unset. -/
def cas (n_active_ele n_active_orb : Nat) : ActiveSpace :=
  ⟨n_active_ele, n_active_orb, none⟩

/-- Modelled from the spec: the data held by `ActiveSpaceMolecularOrbitals` —
the composition of a `MolecularOrbitals` and an `ActiveSpace`, with the derived
core/active/virtual orbital partition and core/active electron counts. -/
structure ActiveSpaceMolecularOrbitals where
  n_electron : Nat
  n_spatial_orb : Nat
  n_active_ele : Nat
  n_active_orb : Nat
  n_core_ele : Nat
  n_core_orb : Nat
  n_vir_orb : Nat
  core_orbs : List Nat
  active_orbs : List Nat
  deriving DecidableEq, Repr

/-- Modelled from the spec: construction of `ActiveSpaceMolecularOrbitals`.
Fails fast with `ConfigurationError` when `n_active_ele` exceeds `n_electron`,
when `(n_electron - n_active_ele)` is odd, or when `n_active_orb` exceeds the
number of remaining spatial orbitals.  Otherwise, when `active_orbs_indices`
is unset, core orbitals are the lowest-ordered
`n_core_orb = (n_electron - n_active_ele)/2` orbitals and active orbitals are
the next `n_active_orb` indices; when it is set, the given indices are active
and the lowest-ordered indices outside it are core. -/
def mkActiveSpaceMolecularOrbitals (n_electron n_spatial_orb : Nat)
    (as : ActiveSpace) : Except ConfigurationError ActiveSpaceMolecularOrbitals :=
  if n_electron < as.n_active_ele then
    .error (.mk "n_active_ele exceeds n_electron")
  else if (n_electron - as.n_active_ele) % 2 = 1 then
    .error (.mk "odd number of core electrons")
  else if (n_spatial_orb : Int) - (((n_electron - as.n_active_ele) / 2 : Nat) : Int)
      < (as.n_active_orb : Int) then
    .error (.mk "n_active_orb exceeds the remaining spatial orbitals")
  else
    match as.active_orbs_indices with
    | none =>
      .ok ⟨n_electron, n_spatial_orb, as.n_active_ele, as.n_active_orb,
           n_electron - as.n_active_ele, (n_electron - as.n_active_ele) / 2,
           n_spatial_orb - (n_electron - as.n_active_ele) / 2 - as.n_active_orb,
           List.range ((n_electron - as.n_active_ele) / 2),
           (List.range as.n_active_orb).map ((n_electron - as.n_active_ele) / 2 + ·)⟩
    | some idx =>
      .ok ⟨n_electron, n_spatial_orb, as.n_active_ele, as.n_active_orb,
           n_electron - as.n_active_ele, (n_electron - as.n_active_ele) / 2,
           n_spatial_orb - (n_electron - as.n_active_ele) / 2 - as.n_active_orb,
           ((List.range n_spatial_orb).filter (fun i => !(idx.contains i))).take
             ((n_electron - as.n_active_ele) / 2),
           idx⟩

/-- The `get_core_and_active_orb` method: the pair of the core spatial orbital
list and the active spatial orbital list. -/
def get_core_and_active_orb (asmo : ActiveSpaceMolecularOrbitals) :
    List Nat × List Nat :=
  (asmo.core_orbs, asmo.active_orbs)

/-- The `orb_type` method: a pure lookup of the classification of spatial
orbital `i`, failing with `IndexError` semantics when `i` is out of range. -/
def orb_type (asmo : ActiveSpaceMolecularOrbitals) (i : Nat) :
    Except IndexError OrbitalType :=
  if asmo.core_orbs.contains i then .ok .CORE
  else if asmo.active_orbs.contains i then .ok .ACTIVE
  else if i < asmo.n_spatial_orb then .ok .VIRTUAL
  else .error (.mk "orbital index out of range")

/-- `true` exactly when the computation failed. -/
def isError {ε α : Type} : Except ε α → Bool
  | .error _ => true
  | .ok _ => false

/-- Unpacking a successful `mkActiveSpaceMolecularOrbitals` construction:
the validity conditions hold and the count fields have their defining values. -/
theorem mkASMO_ok_fields (ne nso : Nat) (as : ActiveSpace)
    (asmo : ActiveSpaceMolecularOrbitals)
    (h : mkActiveSpaceMolecularOrbitals ne nso as = .ok asmo) :
    as.n_active_ele ≤ ne ∧
    (ne - as.n_active_ele) % 2 = 0 ∧
    (ne - as.n_active_ele) / 2 + as.n_active_orb ≤ nso ∧
    asmo.n_electron = ne ∧
    asmo.n_spatial_orb = nso ∧
    asmo.n_active_ele = as.n_active_ele ∧
    asmo.n_active_orb = as.n_active_orb ∧
    asmo.n_core_ele = ne - as.n_active_ele ∧
    asmo.n_core_orb = (ne - as.n_active_ele) / 2 ∧
    asmo.n_vir_orb = nso - (ne - as.n_active_ele) / 2 - as.n_active_orb := by
  unfold mkActiveSpaceMolecularOrbitals at h
  split_ifs at h with h1 h2 h3
  rcases hix : as.active_orbs_indices with _ | l <;> rw [hix] at h <;>
    simp only [Except.ok.injEq] at h <;> subst h <;>
    exact ⟨by omega, by omega, by omega, rfl, rfl, rfl, rfl, rfl, rfl, rfl⟩

/-- Unpacking the orbital lists of a successful construction with
`active_orbs_indices` unset: core orbitals are the lowest `n_core_orb`
indices and active orbitals the next `n_active_orb` indices. -/
theorem mkASMO_ok_default_lists (ne nso : Nat) (as : ActiveSpace)
    (asmo : ActiveSpaceMolecularOrbitals)
    (hidx : as.active_orbs_indices = none)
    (h : mkActiveSpaceMolecularOrbitals ne nso as = .ok asmo) :
    asmo.core_orbs = List.range asmo.n_core_orb ∧
    asmo.active_orbs = (List.range asmo.n_active_orb).map (asmo.n_core_orb + ·) := by
  unfold mkActiveSpaceMolecularOrbitals at h
  split_ifs at h with h1 h2 h3
  rw [hidx] at h
  simp only [Except.ok.injEq] at h
  subst h
  exact ⟨rfl, rfl⟩

/-- C2: for every valid combination of `n_electron`, `n_spatial_orb` and
`ActiveSpace`, the constructed `ActiveSpaceMolecularOrbitals` satisfies
`n_core_ele + n_active_ele = n_electron` and
`n_core_orb + n_active_orb + n_vir_orb = n_spatial_orb`. -/
theorem activeSpace_electron_orbital_invariant (ne nso : Nat) (as : ActiveSpace)
    (asmo : ActiveSpaceMolecularOrbitals)
    (h : mkActiveSpaceMolecularOrbitals ne nso as = .ok asmo) :
    asmo.n_core_ele + asmo.n_active_ele = ne ∧
    asmo.n_core_orb + asmo.n_active_orb + asmo.n_vir_orb = nso := by
  obtain ⟨hle, hmod, hfit, _, _, hae, hao, hce, hco, hvo⟩ :=
    mkASMO_ok_fields ne nso as asmo h
  omega

/-- The molecule configuration of the tutorial scenario: a 10-electron,
7-spatial-orbital molecule with active space `cas(6, 4)`. -/
def asmoScenario : ActiveSpaceMolecularOrbitals :=
  ⟨10, 7, 6, 4, 4, 2, 1, [0, 1], [2, 3, 4, 5]⟩

/-- Witness for C2: the invariant instantiated at `n_electron = 10`,
`n_spatial_orb = 7`, `cas(6, 4)`. -/
theorem activeSpace_electron_orbital_invariant_witness :
    asmoScenario.n_core_ele + asmoScenario.n_active_ele = 10 ∧
    asmoScenario.n_core_orb + asmoScenario.n_active_orb + asmoScenario.n_vir_orb = 7 :=
  activeSpace_electron_orbital_invariant 10 7 (cas 6 4) asmoScenario rfl

/-- C3: when `active_orbs_indices` is unset, the core orbitals are the lowest
`n_core_orb = (n_electron - n_active_ele)/2` indices, the active orbitals are
the next `n_active_orb` indices, and the rest (counted by `n_vir_orb`) are
virtual; `get_core_and_active_orb` returns these two lists. -/
theorem default_partition_core_then_active (ne nso : Nat) (as : ActiveSpace)
    (asmo : ActiveSpaceMolecularOrbitals)
    (hidx : as.active_orbs_indices = none)
    (h : mkActiveSpaceMolecularOrbitals ne nso as = .ok asmo) :
    asmo.n_core_orb = (ne - as.n_active_ele) / 2 ∧
    asmo.n_core_ele = ne - as.n_active_ele ∧
    asmo.n_vir_orb = nso - asmo.n_core_orb - asmo.n_active_orb ∧
    get_core_and_active_orb asmo =
      (List.range asmo.n_core_orb,
       (List.range asmo.n_active_orb).map (asmo.n_core_orb + ·)) := by
  obtain ⟨hle, hmod, hfit, _, _, hae, hao, hce, hco, hvo⟩ :=
    mkASMO_ok_fields ne nso as asmo h
  obtain ⟨hcore, hact⟩ := mkASMO_ok_default_lists ne nso as asmo hidx h
  refine ⟨hco, hce, by omega, ?_⟩
  unfold get_core_and_active_orb
  rw [hcore, hact]

/-- Witness for C3: the tutorial scenario — `n_electron = 10`,
`n_spatial_orb = 7`, `cas(6, 4)` gives `n_core_ele = 4`, `n_core_orb = 2`,
`n_active_orb = 4`, `n_vir_orb = 1`, core orbitals `[0, 1]` and active
orbitals `[2, 3, 4, 5]`. -/
theorem default_partition_core_then_active_witness :
    mkActiveSpaceMolecularOrbitals 10 7 (cas 6 4) = .ok asmoScenario ∧
    asmoScenario.n_core_ele = 4 ∧ asmoScenario.n_core_orb = 2 ∧
    asmoScenario.n_active_orb = 4 ∧ asmoScenario.n_vir_orb = 1 ∧
    get_core_and_active_orb asmoScenario = ([0, 1], [2, 3, 4, 5]) := by
  refine ⟨rfl, rfl, rfl, rfl, rfl, ?_⟩
  have h := default_partition_core_then_active 10 7 (cas 6 4) asmoScenario rfl rfl
  rw [h.2.2.2]
  rfl

/-- C4: construction of the active space fails with `ConfigurationError`
exactly when `n_active_ele` exceeds `n_electron`, when
`n_electron - n_active_ele` is odd, or when `n_active_orb` exceeds the number
of remaining spatial orbitals; on failure no `ActiveSpaceMolecularOrbitals`
is produced at all.  In particular `cas(11, 4)` against the 10-electron
molecule is rejected. -/
theorem configuration_error_exactly_on_invalid_input :
    (∀ (ne nso : Nat) (as : ActiveSpace),
      isError (mkActiveSpaceMolecularOrbitals ne nso as) = true ↔
        (ne < as.n_active_ele ∨ (ne - as.n_active_ele) % 2 = 1 ∨
          (nso : Int) - (((ne - as.n_active_ele) / 2 : Nat) : Int)
            < (as.n_active_orb : Int))) ∧
    isError (mkActiveSpaceMolecularOrbitals 10 7 (cas 11 4)) = true := by
  constructor
  · intro ne nso as
    unfold mkActiveSpaceMolecularOrbitals
    split_ifs with h1 h2 h3
    · simpa [isError] using Or.inl h1
    · simpa [isError] using Or.inr (Or.inl h2)
    · simpa [isError] using Or.inr (Or.inr h3)
    · rcases hix : as.active_orbs_indices with _ | l <;>
        simp [isError, h1, h2, h3] <;> omega
  · rfl

/-- C5: for an active space specified by counts, `orb_type` classifies every
in-range orbital index as exactly one of CORE / ACTIVE / VIRTUAL — the three
preimage sets are the disjoint intervals `[0, n_core_orb)`,
`[n_core_orb, n_core_orb + n_active_orb)` and
`[n_core_orb + n_active_orb, n_spatial_orb)` — and fails with `IndexError`
semantics on every out-of-range index. -/
theorem orb_type_partitions_orbitals (ne nso : Nat) (as : ActiveSpace)
    (asmo : ActiveSpaceMolecularOrbitals)
    (hidx : as.active_orbs_indices = none)
    (h : mkActiveSpaceMolecularOrbitals ne nso as = .ok asmo) :
    ∀ i : Nat,
      (i < nso →
        ((orb_type asmo i = .ok .CORE ↔ i < asmo.n_core_orb) ∧
         (orb_type asmo i = .ok .ACTIVE ↔
            asmo.n_core_orb ≤ i ∧ i < asmo.n_core_orb + asmo.n_active_orb) ∧
         (orb_type asmo i = .ok .VIRTUAL ↔
            asmo.n_core_orb + asmo.n_active_orb ≤ i))) ∧
      (nso ≤ i → orb_type asmo i = .error (.mk "orbital index out of range")) := by
  obtain ⟨hle, hmod, hfit, _, hnso, hae, hao, hce, hco, hvo⟩ :=
    mkASMO_ok_fields ne nso as asmo h
  obtain ⟨hcore, hact⟩ := mkASMO_ok_default_lists ne nso as asmo hidx h
  intro i
  have hcmem : asmo.core_orbs.contains i = decide (i < asmo.n_core_orb) := by
    rw [hcore]
    simp [List.contains, List.elem_eq_mem, List.mem_range]
  have hamem : asmo.active_orbs.contains i =
      decide (asmo.n_core_orb ≤ i ∧ i < asmo.n_core_orb + asmo.n_active_orb) := by
    rw [hact]
    by_cases hi : asmo.n_core_orb ≤ i ∧ i < asmo.n_core_orb + asmo.n_active_orb
    · simp only [List.contains, List.elem_eq_mem, List.mem_map, List.mem_range]
      rw [decide_eq_true hi, decide_eq_true ⟨i - asmo.n_core_orb, by omega, by omega⟩]
    · simp only [List.contains, List.elem_eq_mem, List.mem_map, List.mem_range]
      rw [decide_eq_false hi, decide_eq_false]
      rintro ⟨j, hj, rfl⟩
      exact hi ⟨by omega, by omega⟩
  constructor
  · intro hin
    by_cases h1 : i < asmo.n_core_orb
    · have hval : orb_type asmo i = .ok .CORE := by
        unfold orb_type
        rw [hcmem, hamem]
        simp [h1]
      rw [hval]
      refine ⟨?_, ?_, ?_⟩ <;> simp <;> omega
    · by_cases h2 : asmo.n_core_orb ≤ i ∧ i < asmo.n_core_orb + asmo.n_active_orb
      · have hval : orb_type asmo i = .ok .ACTIVE := by
          unfold orb_type
          rw [hcmem, hamem]
          simp [h1, h2]
        rw [hval]
        refine ⟨?_, ?_, ?_⟩ <;> simp <;> omega
      · have hval : orb_type asmo i = .ok .VIRTUAL := by
          unfold orb_type
          rw [hcmem, hamem]
          simp [h1, h2, hnso, hin]
        rw [hval]
        refine ⟨?_, ?_, ?_⟩ <;> simp <;> omega
  · intro hout
    unfold orb_type
    rw [hcmem, hamem]
    have h1 : ¬ i < asmo.n_core_orb := by omega
    have h2 : ¬ (asmo.n_core_orb ≤ i ∧ i < asmo.n_core_orb + asmo.n_active_orb) := by
      omega
    have h3 : ¬ i < asmo.n_spatial_orb := by omega
    simp [h1, h2, h3]

/-- Witness for C5: in the tutorial scenario, orbital 0 is CORE, orbital 2 is
ACTIVE, orbital 6 is VIRTUAL, and orbital 7 is out of range. -/
theorem orb_type_partitions_orbitals_witness :
    orb_type asmoScenario 0 = .ok .CORE ∧
    orb_type asmoScenario 2 = .ok .ACTIVE ∧
    orb_type asmoScenario 6 = .ok .VIRTUAL ∧
    orb_type asmoScenario 7 = .error (.mk "orbital index out of range") := by
  have h := orb_type_partitions_orbitals 10 7 (cas 6 4) asmoScenario rfl rfl
  exact ⟨((h 0).1 (by omega)).1.mpr (by decide),
         ((h 2).1 (by omega)).2.1.mpr (by decide),
         ((h 6).1 (by omega)).2.2.mpr (by decide),
         (h 7).2 (by omega)⟩

/-- C9: `cas n_active_ele n_active_orb` equals `ActiveSpace.mk` of the same
counts with `active_orbs_indices` left `none`, so the two constructors are
interchangeable wherever an active space is consumed — in particular in
`mkActiveSpaceMolecularOrbitals`. -/
theorem cas_equals_default_ActiveSpace :
    (∀ a b : Nat, cas a b = ActiveSpace.mk a b none) ∧
    (∀ ne nso a b : Nat,
      mkActiveSpaceMolecularOrbitals ne nso (cas a b) =
        mkActiveSpaceMolecularOrbitals ne nso (ActiveSpace.mk a b none)) :=
  ⟨fun _ _ => rfl, fun _ _ _ _ => rfl⟩

/-! ## Electron-integral pipeline

Integral tensors are modelled as total functions on `Nat` indices with exact
rational entries; only the entries with indices below the basis size `n` are
meaningful, and all sums range over `Finset.range n`. -/

/-- Sum of `f a b` over all `a, b < n`. -/
def sum2 (n : Nat) (f : Nat → Nat → ℚ) : ℚ :=
  Finset.sum (Finset.range n) (fun a => Finset.sum (Finset.range n) (fun b => f a b))

/-- Sum of `f a b c d` over all `a, b, c, d < n`. -/
def sum4 (n : Nat) (f : Nat → Nat → Nat → Nat → ℚ) : ℚ :=
  Finset.sum (Finset.range n) (fun a =>
    Finset.sum (Finset.range n) (fun b =>
      Finset.sum (Finset.range n) (fun c =>
        Finset.sum (Finset.range n) (fun d => f a b c d))))

/-- Modelled from the spec: an atomic-orbital electron-integral set — the
nuclear-repulsion constant, the rank-2 one-electron AO array and the rank-4
two-electron AO array, over a basis of `n` spatial orbitals. -/
structure AOeIntSet where
  n : Nat
  constant : ℚ
  ao1 : Nat → Nat → ℚ
  ao2 : Nat → Nat → Nat → Nat → ℚ

/-- Modelled from the spec: a spatial molecular-orbital electron-integral set —
the constant, the one-electron MO array and the two-electron MO array. -/
structure SpatialMOeIntSet where
  n : Nat
  const : ℚ
  mo1 : Nat → Nat → ℚ
  mo2 : Nat → Nat → Nat → Nat → ℚ

/-- Modelled from the spec: a spin molecular-orbital electron-integral set,
over `n` spin orbitals (twice the spatial count; even index = alpha, odd =
beta). -/
structure SpinMOeIntSet where
  n : Nat
  const : ℚ
  mo1 : Nat → Nat → ℚ
  mo2 : Nat → Nat → Nat → Nat → ℚ

/-- Modelled from the spec: `to_full_space_spatial_mo_int` — the MO
coefficient matrix `C` applied as a similarity transform to the AO one- and
two-electron integrals (the standard four-index transformation for the
two-electron tensor). -/
def to_full_space_spatial_mo_int (ao : AOeIntSet) (C : Nat → Nat → ℚ) :
    SpatialMOeIntSet :=
  ⟨ao.n, ao.constant,
   fun p q => sum2 ao.n (fun a b => C a p * C b q * ao.ao1 a b),
   fun p q r s =>
     sum4 ao.n (fun a b c d => C a p * C b q * C c r * C d s * ao.ao2 a b c d)⟩

/-- Modelled from the spec: expansion of spatial MO integrals into the
spin-orbital basis — each spatial index is duplicated into alpha/beta
channels, cross-spin one-electron terms are zero, and two-electron terms keep
only spin-conserving index combinations. -/
def spatial_to_spin (mo : SpatialMOeIntSet) : SpinMOeIntSet :=
  ⟨2 * mo.n, mo.const,
   fun p q => if p % 2 = q % 2 then mo.mo1 (p / 2) (q / 2) else 0,
   fun p q r s =>
     if p % 2 = q % 2 ∧ r % 2 = s % 2 then
       mo.mo2 (p / 2) (q / 2) (r / 2) (s / 2)
     else 0⟩

/-- Modelled from the spec: `to_full_space_mo_int` — the full-space spin MO
integrals, obtained by spin-expanding the full-space spatial MO integrals. -/
def to_full_space_mo_int (ao : AOeIntSet) (C : Nat → Nat → ℚ) : SpinMOeIntSet :=
  spatial_to_spin (to_full_space_spatial_mo_int ao C)

/-- The `u`-th active orbital of the partition (its index in the full space). -/
def actOrb (asmo : ActiveSpaceMolecularOrbitals) (u : Nat) : Nat :=
  asmo.active_orbs.getD u 0

/-- Modelled from the spec: the frozen-core (mean-field) energy contribution
of the doubly occupied core orbitals, folded into the constant part. -/
def coreEnergyShift (core : List Nat) (mo : SpatialMOeIntSet) : ℚ :=
  (core.map (fun i => 2 * mo.mo1 i i)).sum +
    (core.map (fun i =>
      (core.map (fun j => 2 * mo.mo2 i i j j - mo.mo2 i j j i)).sum)).sum

/-- Modelled from the spec:
`get_active_space_spatial_integrals_from_mo_eint` — projection of
already-computed full-space spatial MO integrals onto the active space:
core-orbital contributions are folded into a modified constant and
one-electron array (the mean-field contribution of the frozen core) and the
retained arrays are restricted to active indices. -/
def get_active_space_spatial_integrals_from_mo_eint
    (asmo : ActiveSpaceMolecularOrbitals) (mo : SpatialMOeIntSet) :
    SpatialMOeIntSet :=
  ⟨asmo.n_active_orb,
   mo.const + coreEnergyShift asmo.core_orbs mo,
   fun u v =>
     mo.mo1 (actOrb asmo u) (actOrb asmo v) +
       (asmo.core_orbs.map (fun i =>
         2 * mo.mo2 (actOrb asmo u) (actOrb asmo v) i i -
           mo.mo2 (actOrb asmo u) i i (actOrb asmo v))).sum,
   fun u v w x =>
     mo.mo2 (actOrb asmo u) (actOrb asmo v) (actOrb asmo w) (actOrb asmo x)⟩

/-- Modelled from the spec: `get_active_space_spin_integrals_from_mo_eint` —
the active-space spin MO integrals obtained by spin-expanding the projected
spatial MO integrals. -/
def get_active_space_spin_integrals_from_mo_eint
    (asmo : ActiveSpaceMolecularOrbitals) (mo : SpatialMOeIntSet) :
    SpinMOeIntSet :=
  spatial_to_spin (get_active_space_spatial_integrals_from_mo_eint asmo mo)

/-- `to_active_space_spatial_mo_int`: per the notebook, this method computes
the full-space spatial MO integrals first and then projects them onto the
selected active space. -/
def to_active_space_spatial_mo_int (ao : AOeIntSet) (C : Nat → Nat → ℚ)
    (asmo : ActiveSpaceMolecularOrbitals) : SpatialMOeIntSet :=
  get_active_space_spatial_integrals_from_mo_eint asmo
    (to_full_space_spatial_mo_int ao C)

/-- `to_active_space_mo_int`: per the notebook, this method computes the
full-space MO integrals first and then projects them onto the selected
active space. -/
def to_active_space_mo_int (ao : AOeIntSet) (C : Nat → Nat → ℚ)
    (asmo : ActiveSpaceMolecularOrbitals) : SpinMOeIntSet :=
  get_active_space_spin_integrals_from_mo_eint asmo
    (to_full_space_spatial_mo_int ao C)

/-- C1: for every molecule (AO integral set and MO coefficients) and every
active space, computing active-space integrals by "full space, then project"
(`to_active_space_spatial_mo_int` / `to_active_space_mo_int`) agrees — in
constant, one-electron array and two-electron array, and exactly so in this
exact-arithmetic model — with the direct shortcut that projects from
already-computed MO integrals (`get_active_space_spatial_integrals_from_mo_eint`
/ `get_active_space_spin_integrals_from_mo_eint`). -/
theorem active_space_projection_paths_agree (ao : AOeIntSet)
    (C : Nat → Nat → ℚ) (asmo : ActiveSpaceMolecularOrbitals)
    (moints : SpatialMOeIntSet)
    (h : moints = to_full_space_spatial_mo_int ao C) :
    ((to_active_space_spatial_mo_int ao C asmo).const =
        (get_active_space_spatial_integrals_from_mo_eint asmo moints).const ∧
      (∀ p q, (to_active_space_spatial_mo_int ao C asmo).mo1 p q =
        (get_active_space_spatial_integrals_from_mo_eint asmo moints).mo1 p q) ∧
      (∀ p q r s, (to_active_space_spatial_mo_int ao C asmo).mo2 p q r s =
        (get_active_space_spatial_integrals_from_mo_eint asmo moints).mo2 p q r s)) ∧
    ((to_active_space_mo_int ao C asmo).const =
        (get_active_space_spin_integrals_from_mo_eint asmo moints).const ∧
      (∀ p q, (to_active_space_mo_int ao C asmo).mo1 p q =
        (get_active_space_spin_integrals_from_mo_eint asmo moints).mo1 p q) ∧
      (∀ p q r s, (to_active_space_mo_int ao C asmo).mo2 p q r s =
        (get_active_space_spin_integrals_from_mo_eint asmo moints).mo2 p q r s)) := by
  subst h
  exact ⟨⟨rfl, fun _ _ => rfl, fun _ _ _ _ => rfl⟩,
         ⟨rfl, fun _ _ => rfl, fun _ _ _ _ => rfl⟩⟩

/-- A concrete two-orbital AO integral set used by witnesses. -/
def aoSample : AOeIntSet :=
  ⟨2, 5, fun a b => (a : ℚ) + (b : ℚ) + 1,
   fun a b c d => (a : ℚ) * (b : ℚ) + (c : ℚ) * (d : ℚ) + 1⟩

/-- A concrete MO coefficient matrix used by witnesses. -/
def coeffSample : Nat → Nat → ℚ :=
  fun a p => (a : ℚ) + 2 * (p : ℚ) + 1

/-- A concrete active-space partition of the two-orbital molecule: one core
orbital `[0]` and one active orbital `[1]` (from `cas(2, 1)` on a 4-electron
molecule). -/
def asmoSample : ActiveSpaceMolecularOrbitals :=
  ⟨4, 2, 2, 1, 2, 1, 0, [0], [1]⟩

/-- Witness for C1: the two projection paths evaluated on the concrete
two-orbital molecule agree. -/
theorem active_space_projection_paths_agree_witness :
    (to_active_space_spatial_mo_int aoSample coeffSample asmoSample).const =
      (get_active_space_spatial_integrals_from_mo_eint asmoSample
        (to_full_space_spatial_mo_int aoSample coeffSample)).const ∧
    (to_active_space_spatial_mo_int aoSample coeffSample asmoSample).mo1 0 0 =
      (get_active_space_spatial_integrals_from_mo_eint asmoSample
        (to_full_space_spatial_mo_int aoSample coeffSample)).mo1 0 0 ∧
    (to_active_space_mo_int aoSample coeffSample asmoSample).mo2 0 1 0 1 =
      (get_active_space_spin_integrals_from_mo_eint asmoSample
        (to_full_space_spatial_mo_int aoSample coeffSample)).mo2 0 1 0 1 :=
  ⟨(active_space_projection_paths_agree aoSample coeffSample asmoSample _ rfl).1.1,
   (active_space_projection_paths_agree aoSample coeffSample asmoSample _ rfl).1.2.1 0 0,
   (active_space_projection_paths_agree aoSample coeffSample asmoSample _ rfl).2.2.2 0 1 0 1⟩

/-- Exchanging the first two summation indices of a quadruple sum. -/
theorem sum4_swap_first_pair (n : Nat) (f : Nat → Nat → Nat → Nat → ℚ) :
    sum4 n f = sum4 n (fun a b c d => f b a c d) := by
  unfold sum4
  exact Finset.sum_comm

/-- Exchanging the last two summation indices of a quadruple sum. -/
theorem sum4_swap_last_pair (n : Nat) (f : Nat → Nat → Nat → Nat → ℚ) :
    sum4 n f = sum4 n (fun a b c d => f a b d c) := by
  unfold sum4
  refine Finset.sum_congr rfl fun a _ => Finset.sum_congr rfl fun b _ => ?_
  exact Finset.sum_comm

/-- The four-index transform preserves symmetry under exchange of the first
index pair. -/
theorem full_mo2_swap12 (ao : AOeIntSet) (C : Nat → Nat → ℚ)
    (h12 : ∀ a < ao.n, ∀ b < ao.n, ∀ c < ao.n, ∀ d < ao.n,
      ao.ao2 a b c d = ao.ao2 b a c d) (p q r s : Nat) :
    (to_full_space_spatial_mo_int ao C).mo2 p q r s =
      (to_full_space_spatial_mo_int ao C).mo2 q p r s := by
  show sum4 ao.n (fun a b c d => C a p * C b q * C c r * C d s * ao.ao2 a b c d)
    = sum4 ao.n (fun a b c d => C a q * C b p * C c r * C d s * ao.ao2 a b c d)
  rw [sum4_swap_first_pair ao.n
    (fun a b c d => C a q * C b p * C c r * C d s * ao.ao2 a b c d)]
  unfold sum4
  refine Finset.sum_congr rfl fun a ha => Finset.sum_congr rfl fun b hb =>
    Finset.sum_congr rfl fun c hc => Finset.sum_congr rfl fun d hd => ?_
  rw [Finset.mem_range] at ha hb hc hd
  show C a p * C b q * C c r * C d s * ao.ao2 a b c d
    = C b q * C a p * C c r * C d s * ao.ao2 b a c d
  rw [h12 a ha b hb c hc d hd]
  ring

/-- The four-index transform preserves symmetry under exchange of the last
index pair. -/
theorem full_mo2_swap34 (ao : AOeIntSet) (C : Nat → Nat → ℚ)
    (h34 : ∀ a < ao.n, ∀ b < ao.n, ∀ c < ao.n, ∀ d < ao.n,
      ao.ao2 a b c d = ao.ao2 a b d c) (p q r s : Nat) :
    (to_full_space_spatial_mo_int ao C).mo2 p q r s =
      (to_full_space_spatial_mo_int ao C).mo2 p q s r := by
  show sum4 ao.n (fun a b c d => C a p * C b q * C c r * C d s * ao.ao2 a b c d)
    = sum4 ao.n (fun a b c d => C a p * C b q * C c s * C d r * ao.ao2 a b c d)
  rw [sum4_swap_last_pair ao.n
    (fun a b c d => C a p * C b q * C c s * C d r * ao.ao2 a b c d)]
  unfold sum4
  refine Finset.sum_congr rfl fun a ha => Finset.sum_congr rfl fun b hb =>
    Finset.sum_congr rfl fun c hc => Finset.sum_congr rfl fun d hd => ?_
  rw [Finset.mem_range] at ha hb hc hd
  show C a p * C b q * C c r * C d s * ao.ao2 a b c d
    = C a p * C b q * C d s * C c r * ao.ao2 a b d c
  rw [h34 a ha b hb c hc d hd]
  ring

/-- Spin expansion preserves the two pair-exchange symmetries of a rank-4
tensor. -/
theorem spin_mo2_preserves_swaps (mo : SpatialMOeIntSet)
    (h12 : ∀ p q r s, mo.mo2 p q r s = mo.mo2 q p r s)
    (h34 : ∀ p q r s, mo.mo2 p q r s = mo.mo2 p q s r) (p q r s : Nat) :
    ((spatial_to_spin mo).mo2 p q r s = (spatial_to_spin mo).mo2 q p r s ∧
     (spatial_to_spin mo).mo2 p q r s = (spatial_to_spin mo).mo2 p q s r) := by
  unfold spatial_to_spin
  constructor
  · simp only
    split_ifs with hA hB hB
    · exact h12 _ _ _ _
    · exact absurd ⟨hA.1.symm, hA.2⟩ hB
    · exact absurd ⟨hB.1.symm, hB.2⟩ hA
    · rfl
  · simp only
    split_ifs with hA hB hB
    · exact h34 _ _ _ _
    · exact absurd ⟨hA.1, hA.2.symm⟩ hB
    · exact absurd ⟨hB.1, hB.2.symm⟩ hA
    · rfl

/-- C6: when the AO two-electron array has the real-orbital pair-exchange
symmetries `I[p,q,r,s] = I[q,p,r,s]` and `I[p,q,r,s] = I[p,q,s,r]`, every
two-electron array produced by the pipeline — full-space spatial, active-space
spatial, full-space spin and active-space spin — satisfies the same two
symmetries at all indices. -/
theorem pipeline_two_electron_symmetry (ao : AOeIntSet) (C : Nat → Nat → ℚ)
    (asmo : ActiveSpaceMolecularOrbitals)
    (h12 : ∀ a < ao.n, ∀ b < ao.n, ∀ c < ao.n, ∀ d < ao.n,
      ao.ao2 a b c d = ao.ao2 b a c d)
    (h34 : ∀ a < ao.n, ∀ b < ao.n, ∀ c < ao.n, ∀ d < ao.n,
      ao.ao2 a b c d = ao.ao2 a b d c) :
    (∀ p q r s,
      (to_full_space_spatial_mo_int ao C).mo2 p q r s =
        (to_full_space_spatial_mo_int ao C).mo2 q p r s ∧
      (to_full_space_spatial_mo_int ao C).mo2 p q r s =
        (to_full_space_spatial_mo_int ao C).mo2 p q s r) ∧
    (∀ p q r s,
      (to_active_space_spatial_mo_int ao C asmo).mo2 p q r s =
        (to_active_space_spatial_mo_int ao C asmo).mo2 q p r s ∧
      (to_active_space_spatial_mo_int ao C asmo).mo2 p q r s =
        (to_active_space_spatial_mo_int ao C asmo).mo2 p q s r) ∧
    (∀ p q r s,
      (to_full_space_mo_int ao C).mo2 p q r s =
        (to_full_space_mo_int ao C).mo2 q p r s ∧
      (to_full_space_mo_int ao C).mo2 p q r s =
        (to_full_space_mo_int ao C).mo2 p q s r) ∧
    (∀ p q r s,
      (to_active_space_mo_int ao C asmo).mo2 p q r s =
        (to_active_space_mo_int ao C asmo).mo2 q p r s ∧
      (to_active_space_mo_int ao C asmo).mo2 p q r s =
        (to_active_space_mo_int ao C asmo).mo2 p q s r) := by
  have hfull12 := full_mo2_swap12 ao C h12
  have hfull34 := full_mo2_swap34 ao C h34
  have hact : ∀ p q r s,
      (to_active_space_spatial_mo_int ao C asmo).mo2 p q r s =
        (to_active_space_spatial_mo_int ao C asmo).mo2 q p r s ∧
      (to_active_space_spatial_mo_int ao C asmo).mo2 p q r s =
        (to_active_space_spatial_mo_int ao C asmo).mo2 p q s r := by
    intro p q r s
    exact ⟨hfull12 (actOrb asmo p) (actOrb asmo q) (actOrb asmo r) (actOrb asmo s),
           hfull34 (actOrb asmo p) (actOrb asmo q) (actOrb asmo r) (actOrb asmo s)⟩
  refine ⟨fun p q r s => ⟨hfull12 p q r s, hfull34 p q r s⟩, hact, ?_, ?_⟩
  · exact fun p q r s =>
      spin_mo2_preserves_swaps (to_full_space_spatial_mo_int ao C)
        hfull12 hfull34 p q r s
  · exact fun p q r s =>
      spin_mo2_preserves_swaps
        (get_active_space_spatial_integrals_from_mo_eint asmo
          (to_full_space_spatial_mo_int ao C))
        (fun p q r s => (hact p q r s).1) (fun p q r s => (hact p q r s).2)
        p q r s

/-- A concrete symmetric AO two-electron array over two orbitals. -/
def aoSymmetric : AOeIntSet :=
  ⟨2, 5, fun a b => (a : ℚ) + (b : ℚ),
   fun a b c d => (a : ℚ) * (b : ℚ) + (c : ℚ) * (d : ℚ)⟩

/-- Witness for C6: the symmetry instantiated on the concrete symmetric AO
set, checked at explicit indices of each produced tensor. -/
theorem pipeline_two_electron_symmetry_witness :
    ((to_full_space_spatial_mo_int aoSymmetric coeffSample).mo2 0 1 0 1 =
      (to_full_space_spatial_mo_int aoSymmetric coeffSample).mo2 1 0 0 1) ∧
    ((to_active_space_spatial_mo_int aoSymmetric coeffSample asmoSample).mo2 0 0 0 0 =
      (to_active_space_spatial_mo_int aoSymmetric coeffSample asmoSample).mo2 0 0 0 0) ∧
    ((to_full_space_mo_int aoSymmetric coeffSample).mo2 0 1 2 3 =
      (to_full_space_mo_int aoSymmetric coeffSample).mo2 0 1 3 2) ∧
    ((to_active_space_mo_int aoSymmetric coeffSample asmoSample).mo2 1 0 0 1 =
      (to_active_space_mo_int aoSymmetric coeffSample asmoSample).mo2 0 1 0 1) := by
  have h12 : ∀ a < aoSymmetric.n, ∀ b < aoSymmetric.n, ∀ c < aoSymmetric.n,
      ∀ d < aoSymmetric.n, aoSymmetric.ao2 a b c d = aoSymmetric.ao2 b a c d := by
    intro a _ b _ c _ d _
    show (a : ℚ) * b + (c : ℚ) * d = (b : ℚ) * a + (c : ℚ) * d
    ring
  have h34 : ∀ a < aoSymmetric.n, ∀ b < aoSymmetric.n, ∀ c < aoSymmetric.n,
      ∀ d < aoSymmetric.n, aoSymmetric.ao2 a b c d = aoSymmetric.ao2 a b d c := by
    intro a _ b _ c _ d _
    show (a : ℚ) * b + (c : ℚ) * d = (a : ℚ) * b + (d : ℚ) * c
    ring
  have h := pipeline_two_electron_symmetry aoSymmetric coeffSample asmoSample h12 h34
  exact ⟨(h.1 0 1 0 1).1, (h.2.1 0 0 0 0).1, (h.2.2.1 0 1 2 3).2,
         ((h.2.2.2 0 1 0 1).1).symm⟩

/-! ## Lazy versus eager integral evaluation

Solver work is made observable by threading a counter of solver computations
(`world`) through construction and array access. -/

/-- Modelled from the spec: the minimal inputs the lazy PySCF-backed integral
objects keep on memory — the molecule (basis size, nuclear repulsion, raw AO
tensors obtainable from the solver) and the MO coefficients. -/
structure MoleData where
  n : Nat
  nuc : ℚ
  ao1 : Nat → Nat → ℚ
  ao2 : Nat → Nat → Nat → Nat → ℚ
  mo_coeff : Nat → Nat → ℚ

/-- Modelled from the spec: `AOeIntArraySet` — the eager AO integral set whose
arrays are materialized at construction time. -/
structure AOeIntArraySet where
  constant : ℚ
  ao1_array : Nat → Nat → ℚ
  ao2_array : Nat → Nat → Nat → Nat → ℚ

/-- Modelled from the spec: `PySCFAOeIntSet` — the lazy AO integral set, which
only holds the molecule object on memory. -/
structure PySCFAOeIntSet where
  mol : MoleData

/-- The two storage variants returned by `get_ao_eint_set`. -/
inductive AOeIntVariant where
  | eager (s : AOeIntArraySet)
  | lazy (s : PySCFAOeIntSet)

/-- Modelled from the spec: `get_ao_eint_set` — with
`store_array_on_memory = true` it computes both AO arrays from the solver at
construction (two solver computations); with `false` it stores only the
molecule reference and performs no computation. -/
def get_ao_eint_set (m : MoleData) (store_array_on_memory : Bool)
    (world : Nat) : AOeIntVariant × Nat :=
  if store_array_on_memory then (.eager ⟨m.nuc, m.ao1, m.ao2⟩, world + 2)
  else (.lazy ⟨m⟩, world)

/-- Modelled from the spec: the lazy full-space spatial MO integral set, which
only holds the molecule and the MO coefficients on memory. -/
structure PySCFSpatialMOeIntSet where
  mol : MoleData

/-- Modelled from the spec: `PySCFSpatialMO1eInt` — the lazy one-electron
spatial MO integral object. -/
structure PySCFSpatialMO1eInt where
  mol : MoleData

/-- Deriving the lazy MO set from the lazy AO set stores references only. -/
def PySCFAOeIntSet.to_full_space_spatial_mo_int (s : PySCFAOeIntSet)
    (world : Nat) : PySCFSpatialMOeIntSet × Nat :=
  (⟨s.mol⟩, world)

/-- The `mo_1e_int` accessor of the lazy MO set: a pure projection. -/
def PySCFSpatialMOeIntSet.mo_1e_int (s : PySCFSpatialMOeIntSet) :
    PySCFSpatialMO1eInt :=
  ⟨s.mol⟩

/-- The on-demand `.array` property of the lazy one-electron integral: each
access computes the tensor from the stored molecule and coefficients (one
solver computation). -/
def PySCFSpatialMO1eInt.array (x : PySCFSpatialMO1eInt) (world : Nat) :
    (Nat → Nat → ℚ) × Nat :=
  ((to_full_space_spatial_mo_int ⟨x.mol.n, x.mol.nuc, x.mol.ao1, x.mol.ao2⟩
      x.mol.mo_coeff).mo1,
   world + 1)

/-- C7: constructing the lazy integral set (`store_array_on_memory = false`)
touches the solver only to store references (the computation counter is
unchanged), each `.array` access triggers exactly one computation with no
caching across accesses (two accesses cost two computations), repeated
accesses return numerically identical tensors, and — by contrast — the eager
construction computes its arrays at construction time. -/
theorem lazy_integral_access_contract (m : MoleData) (w : Nat) :
    get_ao_eint_set m false w = (.lazy ⟨m⟩, w) ∧
    PySCFAOeIntSet.to_full_space_spatial_mo_int ⟨m⟩ w = (⟨m⟩, w) ∧
    (PySCFSpatialMO1eInt.array (PySCFSpatialMOeIntSet.mo_1e_int ⟨m⟩) w).2
      = w + 1 ∧
    (PySCFSpatialMO1eInt.array (PySCFSpatialMOeIntSet.mo_1e_int ⟨m⟩)
      ((PySCFSpatialMO1eInt.array (PySCFSpatialMOeIntSet.mo_1e_int ⟨m⟩) w).2)).2
      = w + 2 ∧
    (∀ p q,
      (PySCFSpatialMO1eInt.array (PySCFSpatialMOeIntSet.mo_1e_int ⟨m⟩) w).1 p q =
      (PySCFSpatialMO1eInt.array (PySCFSpatialMOeIntSet.mo_1e_int ⟨m⟩)
        ((PySCFSpatialMO1eInt.array
          (PySCFSpatialMOeIntSet.mo_1e_int ⟨m⟩) w).2)).1 p q) ∧
    (get_ao_eint_set m true w).2 = w + 2 :=
  ⟨rfl, rfl, rfl, rfl, fun _ _ => rfl, rfl⟩

/-! ## The VQE driving loop

The `vqe` function below embeds the loop defined in the notebook:

    opt_state = optimizer.get_init_state(init_params)
    while True:
        opt_state = optimizer.step(opt_state, cost_fn, grad_fn)
        if opt_state.status == OptimizerStatus.FAILED: break
        if opt_state.status == OptimizerStatus.CONVERGED: break
    return opt_state

The unbounded `while True` is given an explicit fuel; `none` means the fuel
ran out before the loop broke. -/

/-- Optimizer status tag. -/
inductive OptimizerStatus where
  | READY
  | CONVERGED
  | FAILED
  deriving DecidableEq, Repr

/-- Modelled from the spec: optimizer state — parameter vector, cost value,
iteration count, call counters and the status tag. -/
structure OptimizerState where
  params : List ℚ
  cost : ℚ
  niter : Nat
  funcalls : Nat
  gradcalls : Nat
  status : OptimizerStatus
  deriving DecidableEq, Repr

/-- A cost function maps a parameter vector to a scalar. -/
def CostFunction : Type := List ℚ → ℚ

/-- A gradient function maps a parameter vector to a vector. -/
def GradientFunction : Type := List ℚ → List ℚ

/-- Modelled from the spec: the optimizer interface — `get_init_state` and
`step`, polymorphic over any cost/gradient function pair. -/
structure Optimizer where
  get_init_state : List ℚ → OptimizerState
  step : OptimizerState → CostFunction → GradientFunction → OptimizerState

/-- The body of the notebook's `while True` loop, with explicit fuel. -/
def vqeLoop (opt : Optimizer) (cost : CostFunction) (grad : GradientFunction) :
    Nat → OptimizerState → Option OptimizerState
  | 0, _ => none
  | fuel + 1, s =>
    if (opt.step s cost grad).status = .FAILED then some (opt.step s cost grad)
    else if (opt.step s cost grad).status = .CONVERGED then
      some (opt.step s cost grad)
    else vqeLoop opt cost grad fuel (opt.step s cost grad)

/-- The notebook's `vqe` function: start from `get_init_state(init_params)`
and repeatedly `step` until the status leaves READY. -/
def vqe (init_params : List ℚ) (cost : CostFunction) (grad : GradientFunction)
    (opt : Optimizer) (fuel : Nat) : Option OptimizerState :=
  vqeLoop opt cost grad fuel (opt.get_init_state init_params)

/-- The list of states `optimizer.step` is invoked on during a run of the
loop started at `s`. -/
def vqeCallTrace (opt : Optimizer) (cost : CostFunction)
    (grad : GradientFunction) : Nat → OptimizerState → List OptimizerState
  | 0, _ => []
  | fuel + 1, s =>
    if (opt.step s cost grad).status = .FAILED then [s]
    else if (opt.step s cost grad).status = .CONVERGED then [s]
    else s :: vqeCallTrace opt cost grad fuel (opt.step s cost grad)

/-- The only non-terminal optimizer status is READY. -/
theorem status_ready_of_not_terminal (st : OptimizerStatus)
    (hf : ¬ st = .FAILED) (hc : ¬ st = .CONVERGED) : st = .READY := by
  cases st <;> simp_all

/-- Every state the loop hands to `step` is READY, provided the start state
is. -/
theorem vqeCallTrace_all_ready (opt : Optimizer) (cost : CostFunction)
    (grad : GradientFunction) (fuel : Nat) :
    ∀ s : OptimizerState, s.status = .READY →
      ∀ t ∈ vqeCallTrace opt cost grad fuel s, t.status = .READY := by
  induction fuel with
  | zero => intro s _ t ht; simp [vqeCallTrace] at ht
  | succ fuel ih =>
    intro s hs t ht
    unfold vqeCallTrace at ht
    split_ifs at ht with hf hc
    · rcases List.mem_singleton.mp ht with rfl; exact hs
    · rcases List.mem_singleton.mp ht with rfl; exact hs
    · rcases List.mem_cons.mp ht with rfl | hmem
      · exact hs
      · exact ih (opt.step s cost grad)
          (status_ready_of_not_terminal _ hf hc) t hmem

/-- When the loop returns a state, that state is terminal. -/
theorem vqeLoop_result_terminal (opt : Optimizer) (cost : CostFunction)
    (grad : GradientFunction) (fuel : Nat) :
    ∀ s r : OptimizerState, vqeLoop opt cost grad fuel s = some r →
      r.status = .CONVERGED ∨ r.status = .FAILED := by
  induction fuel with
  | zero => intro s r h; simp [vqeLoop] at h
  | succ fuel ih =>
    intro s r h
    unfold vqeLoop at h
    split_ifs at h with hf hc
    · cases h; exact Or.inr hf
    · cases h; exact Or.inl hc
    · exact ih (opt.step s cost grad) r h

/-- The loop carries no state of its own: restarting it from any state it
handed to `step`, with enough fuel, reproduces the run's result. -/
theorem vqeLoop_restartable (opt : Optimizer) (cost : CostFunction)
    (grad : GradientFunction) (fuel : Nat) :
    ∀ s r : OptimizerState, vqeLoop opt cost grad fuel s = some r →
      ∀ t ∈ vqeCallTrace opt cost grad fuel s,
        ∃ f₁ ≤ fuel, vqeLoop opt cost grad f₁ t = some r := by
  induction fuel with
  | zero => intro s r h; simp [vqeLoop] at h
  | succ fuel ih =>
    intro s r h t ht
    unfold vqeCallTrace at ht
    unfold vqeLoop at h
    split_ifs at ht h with hf hc
    · rcases List.mem_singleton.mp ht with rfl
      refine ⟨fuel + 1, le_refl _, ?_⟩
      unfold vqeLoop
      simp [hf]
      exact (Option.some.injEq _ _).mp h
    · rcases List.mem_singleton.mp ht with rfl
      refine ⟨fuel + 1, le_refl _, ?_⟩
      unfold vqeLoop
      simp [hf, hc]
      exact (Option.some.injEq _ _).mp h
    · rcases List.mem_cons.mp ht with rfl | hmem
      · refine ⟨fuel + 1, le_refl _, ?_⟩
        unfold vqeLoop
        simp only [hf, hc, if_false]
        exact h
      · obtain ⟨f₁, hle, hrun⟩ := ih (opt.step s cost grad) r h t hmem
        exact ⟨f₁, Nat.le_succ_of_le hle, hrun⟩

/-- C8: for every optimizer, cost function and gradient function, the `vqe`
driving loop calls `step` only on states whose status is READY (given that
`get_init_state` yields a READY state), stops at the first CONVERGED or
FAILED state and returns it — a FAILED optimizer is reported through the
returned state's terminal status, not by raising — and the loop carries no
state of its own, so it can be restarted from any state it visited and
reproduce the same result. -/
theorem vqe_driving_loop_contract (opt : Optimizer) (cost : CostFunction)
    (grad : GradientFunction) (init_params : List ℚ) (fuel : Nat)
    (hinit : (opt.get_init_state init_params).status = .READY) :
    (∀ t ∈ vqeCallTrace opt cost grad fuel (opt.get_init_state init_params),
      t.status = .READY) ∧
    (∀ r : OptimizerState, vqe init_params cost grad opt fuel = some r →
      (r.status = .CONVERGED ∨ r.status = .FAILED) ∧
      (∀ t ∈ vqeCallTrace opt cost grad fuel (opt.get_init_state init_params),
        ∃ f₁ ≤ fuel, vqeLoop opt cost grad f₁ t = some r)) := by
  refine ⟨vqeCallTrace_all_ready opt cost grad fuel _ hinit, fun r h => ?_⟩
  exact ⟨vqeLoop_result_terminal opt cost grad fuel _ r h,
         vqeLoop_restartable opt cost grad fuel _ r h⟩

/-- A toy optimizer that converges after its first step. -/
def toyOptimizer : Optimizer :=
  ⟨fun p => ⟨p, 0, 0, 0, 0, .READY⟩,
   fun s c _ => ⟨s.params, c s.params, s.niter + 1, s.funcalls + 1,
     s.gradcalls + 1, .CONVERGED⟩⟩

/-- A toy cost function: the sum of the parameters. -/
def toyCost : CostFunction := fun p => p.sum

/-- A toy gradient function: the identity. -/
def toyGrad : GradientFunction := fun p => p

/-- The state the toy run terminates in. -/
def toyFinal : OptimizerState := ⟨[1], 1, 1, 1, 1, .CONVERGED⟩

/-- Witness for C8: the toy run returns `toyFinal`, and the contract applied
to it shows the returned state is terminal. -/
theorem vqe_driving_loop_contract_witness :
    vqe [1] toyCost toyGrad toyOptimizer 3 = some toyFinal ∧
    (toyFinal.status = .CONVERGED ∨ toyFinal.status = .FAILED) := by
  have hrun : vqe [1] toyCost toyGrad toyOptimizer 3 = some toyFinal := by
    show vqeLoop toyOptimizer toyCost toyGrad 3 ⟨[1], 0, 0, 0, 0, .READY⟩
      = some toyFinal
    unfold vqeLoop
    norm_num [toyOptimizer, toyCost, toyFinal]
  exact ⟨hrun,
    ((vqe_driving_loop_contract toyOptimizer toyCost toyGrad [1] 3 rfl).2
      toyFinal hrun).1⟩

/-! ## Data recording

A function decorated with `@recordable` receives a `Recorder` whose only
operations are `info` and `debug`, both of which return nothing; such a
function is therefore modelled as the sequence of recorder calls it makes,
ending in its return value.  A record session is `none` (no active session)
or `some level` with the level chosen by `RecordSession.set_level`. -/

/-- Record levels: INFO stores only `.info` data; DEBUG stores both `.info`
and `.debug` data. -/
inductive RecLevel where
  | INFO
  | DEBUG
  deriving DecidableEq, Repr

/-- A stored record entry: the level it was recorded at, its label and its
data. -/
structure RecEntry (δ : Type) where
  level : RecLevel
  label : String
  data : δ

/-- Modelled from the spec: a recordable function as the sequence of
`recorder.info` / `recorder.debug` calls it makes, ending in its return
value.  Both recorder operations return nothing, so the continuation cannot
depend on them. -/
inductive RecProg (δ ρ : Type) where
  | ret (result : ρ)
  | info (label : String) (val : δ) (k : RecProg δ ρ)
  | debug (label : String) (val : δ) (k : RecProg δ ρ)

/-- Modelled from the spec: running a recordable function under a session
mode (`none` = no active session): the function's result together with the
entries the session stores.  At INFO level only `.info` data is stored; at
DEBUG level `.info` and `.debug` data are both stored; without a session
nothing is stored. -/
def runRecordable {δ ρ : Type} : RecProg δ ρ → Option RecLevel → ρ × List (RecEntry δ)
  | .ret r, _ => (r, [])
  | .info l v k, m =>
    ((runRecordable k m).1,
     (match m with
      | some _ => [⟨.INFO, l, v⟩]
      | none => []) ++ (runRecordable k m).2)
  | .debug l v k, m =>
    ((runRecordable k m).1,
     (match m with
      | some .DEBUG => [⟨.DEBUG, l, v⟩]
      | _ => []) ++ (runRecordable k m).2)

/-- The result of a recordable function does not depend on the session
mode. -/
theorem runRecordable_result_independent {δ ρ : Type} (prog : RecProg δ ρ) :
    ∀ m₁ m₂ : Option RecLevel,
      (runRecordable prog m₁).1 = (runRecordable prog m₂).1 := by
  induction prog with
  | ret r => intro m₁ m₂; rfl
  | info l v k ih => intro m₁ m₂; simpa [runRecordable] using ih m₁ m₂
  | debug l v k ih => intro m₁ m₂; simpa [runRecordable] using ih m₁ m₂

/-- Without an active session nothing is recorded. -/
theorem runRecordable_no_session_no_entries {δ ρ : Type} (prog : RecProg δ ρ) :
    (runRecordable prog none).2 = [] := by
  induction prog with
  | ret r => rfl
  | info l v k ih => simpa [runRecordable] using ih
  | debug l v k ih => simpa [runRecordable] using ih

/-- The record level changes only which entries the session stores: the INFO
run stores exactly the INFO-level entries of the DEBUG run. -/
theorem runRecordable_info_filters_debug {δ ρ : Type} (prog : RecProg δ ρ) :
    (runRecordable prog (some .INFO)).2 =
      (runRecordable prog (some .DEBUG)).2.filter
        (fun e => decide (e.level = RecLevel.INFO)) := by
  induction prog with
  | ret r => rfl
  | info l v k ih => simp [runRecordable, ih]
  | debug l v k ih => simp [runRecordable, ih]

/-- The body of the notebook's `return_highest_estimate`: iterate over the
operators, estimate each, record the estimate at `.info` and the operator at
`.debug`, and finally return the maximum of the estimates (none when the
operator list is empty, matching `max([])` being an error). -/
def rheBody {Op St : Type} (estimator : Op → St → ℚ) (state : St) :
    List Op → Nat → List ℚ → RecProg (Sum ℚ Op) (Option ℚ)
  | [], _, acc => .ret acc.max?
  | op :: rest, i, acc =>
    .info ("expectation value " ++ toString i) (Sum.inl (estimator op state))
      (.debug "operator" (Sum.inr op)
        (rheBody estimator state rest (i + 1) (acc ++ [estimator op state])))

/-- The notebook's recordable `return_highest_estimate` function, abstracted
over the estimator backend. -/
def return_highest_estimate {Op St : Type} (estimator : Op → St → ℚ)
    (ops : List Op) (state : St) : RecProg (Sum ℚ Op) (Option ℚ) :=
  rheBody estimator state ops 0 []

/-- C10: for every recordable function (every `RecProg`) and every input, the
returned value is identical whether the function runs outside any record
session, inside a session at INFO level, or inside a session at DEBUG level;
the record level changes only which entries the session stores (INFO stores
exactly the INFO-level part of the DEBUG run), and without an active session
nothing is recorded.  In particular this holds for the notebook's
`return_highest_estimate` on every estimator, operator list and state. -/
theorem recordable_level_noninterference {δ ρ Op St : Type}
    (prog : RecProg δ ρ) (m₁ m₂ : Option RecLevel)
    (estimator : Op → St → ℚ) (ops : List Op) (state : St) :
    (runRecordable prog m₁).1 = (runRecordable prog m₂).1 ∧
    (runRecordable prog none).2 = [] ∧
    (runRecordable prog (some .INFO)).2 =
      (runRecordable prog (some .DEBUG)).2.filter
        (fun e => decide (e.level = RecLevel.INFO)) ∧
    (runRecordable (return_highest_estimate estimator ops state) m₁).1 =
      (runRecordable (return_highest_estimate estimator ops state) m₂).1 ∧
    (runRecordable (return_highest_estimate estimator ops state) none).2 = [] :=
  ⟨runRecordable_result_independent prog m₁ m₂,
   runRecordable_no_session_no_entries prog,
   runRecordable_info_filters_debug prog,
   runRecordable_result_independent (return_highest_estimate estimator ops state) m₁ m₂,
   runRecordable_no_session_no_entries (return_highest_estimate estimator ops state)⟩

end QuriSdk
